import Mathlib

/-!
Shallow embedding of `omnimat.py`: an iCalendar reader that filters events
by date range and attendee acceptance, sorts them by start instant, and
prints one fixed-format line per event.

Wall-clock datetimes are embedded as calendar fields plus an optional UTC
offset (`tz = none` models a naive Python datetime).  Comparisons between
timezone-aware datetimes in Python compare the underlying instants; we
compute the instant as seconds since the Unix epoch via the standard
civil-calendar day count.  The ambient clock (`datetime.now`) is embedded
as an explicit stream of samples `clock : Nat → Int`, one per call site
invocation, so that the temporal behaviour of `_is_event_in_range` is
observable.
-/

namespace Omnimat

/-- A Python `datetime.datetime` value: calendar fields for the wall clock and
an optional UTC offset in seconds (`none` models a naive datetime, i.e.
`tzinfo is None`; `some 0` models `timezone.utc`). -/
structure DateTime where
  year : Int
  month : Int
  day : Int
  hour : Int
  minute : Int
  second : Int
  tz : Option Int
deriving DecidableEq, Repr

/-- Days from the civil date to the Unix epoch (1970-01-01 is day 0),
the standard days-from-civil computation used to compare calendar
datetimes as instants. -/
def daysFromCivil (y m d : Int) : Int :=
  let yAdj := if m ≤ 2 then y - 1 else y
  let era := (if 0 ≤ yAdj then yAdj else yAdj - 399) / 400
  let yoe := yAdj - era * 400
  let mp := (m + 9) % 12
  let doy := (153 * mp + 2) / 5 + d - 1
  let doe := yoe * 365 + yoe / 4 - yoe / 100 + doy
  era * 146097 + doe - 719468

/-- The instant (seconds since the Unix epoch) denoted by a datetime.
For aware datetimes this is exactly Python's comparison key; naive
datetimes never reach an aware/naive comparison in this program. -/
def DateTime.instant (dt : DateTime) : Int :=
  daysFromCivil dt.year dt.month dt.day * 86400
    + dt.hour * 3600 + dt.minute * 60 + dt.second - dt.tz.getD 0

/-- An ATTENDEE property value: `params` is `some` when the raw value has a
`params` attribute (`hasattr(attendee, "params")`), holding the parameter
map as an association list. -/
structure Attendee where
  params : Option (List (String × String))
deriving DecidableEq, Repr

/-- The raw `component.get("attendee")` result: `absent` when the property is
missing (`None`), otherwise a single value or a list of values. -/
inductive AttendeeField where
  | absent
  | single (a : Attendee)
  | multiple (l : List Attendee)
deriving DecidableEq, Repr

/-- Whether one attendee passes the check
`hasattr(attendee, "params") and attendee.params.get("PARTSTAT") == "ACCEPTED"`. -/
def attendeeAccepted (a : Attendee) : Bool :=
  match a.params with
  | some ps => ps.lookup "PARTSTAT" == some "ACCEPTED"
  | none => false

/-- The early-return loop body of `CalendarReader._get_attendee_status`. -/
def statusScan : List Attendee → String
  | [] => "DECLINED"
  | a :: rest => if attendeeAccepted a then "ACCEPTED" else statusScan rest

/-- `CalendarReader._get_attendee_status`: the `if attendees:` guard (false for
`None` and for an empty list), the single-value-to-list normalization, and
the scan for an accepted attendee. -/
def getAttendeeStatus (f : AttendeeField) : String :=
  match f with
  | .absent => "DECLINED"
  | .single a => statusScan [a]
  | .multiple l => if l.isEmpty then "DECLINED" else statusScan l

/-- The list of attendees denoted by the raw field (the sequence the loop in
`_get_attendee_status` iterates over; empty when the property is absent). -/
def attendeesOf : AttendeeField → List Attendee
  | .absent => []
  | .single a => [a]
  | .multiple l => l

/-- The raw `component.get("dtstart").dt` value: either a `datetime.date`
(no time-of-day) or a `datetime.datetime`. -/
inductive RawStart where
  | dateOnly (year month day : Int)
  | dateTime (dt : DateTime)
deriving DecidableEq, Repr

/-- Start-time normalization from `CalendarReader.read_events` (lines 79-87):
a date-only start is combined with `datetime.time.min` and `timezone.utc`;
a naive datetime gets `tzinfo=timezone.utc` attached; an aware datetime is
left untouched. -/
def normalizeStart : RawStart → DateTime
  | .dateOnly y m d => ⟨y, m, d, 0, 0, 0, some 0⟩
  | .dateTime dt => if dt.tz.isNone then { dt with tz := some 0 } else dt

/-- A VEVENT component as the reader consumes it. -/
structure VEvent where
  summary : String
  dtstart : RawStart
  attendee : AttendeeField
deriving DecidableEq, Repr

/-- A component encountered by `gcal.walk()`: either a VEVENT or some other
component (skipped by the `component.name == "VEVENT"` test). -/
inductive Component where
  | vevent (v : VEvent)
  | other (componentName : String)
deriving DecidableEq, Repr

/-- The `CalendarEvent` value class: summary, normalized start, attendee
status.  Equality is structural, as in the Python `__eq__`. -/
structure CalendarEvent where
  summary : String
  start : DateTime
  attendee_status : String
deriving DecidableEq, Repr

/-- The `CalendarReader` configuration after `__init__`: the optional day
count, and the optional explicit interval bounds (already parsed from
`DD_MM_YYYY` strings and tagged with UTC). -/
structure ReaderConfig where
  days_before : Option Int
  start_date : Option DateTime
  end_date : Option DateTime
deriving DecidableEq, Repr

/-- The datetime produced by `datetime.strptime(s, "%d_%m_%Y").replace(tzinfo=timezone.utc)`
for a date string with the given fields: midnight UTC on that civil date. -/
def parsedDate (day month year : Int) : DateTime :=
  ⟨year, month, day, 0, 0, 0, some 0⟩

/-- `CalendarReader._is_event_in_range`.  `now` is the instant sampled by
`datetime.datetime.now(timezone.utc)` during this call (only consulted on
the trailing-window branch).  The Python truthiness tests are embedded
exactly: datetime fields are truthy iff present, and an integer day count
is truthy iff nonzero, so `days_before == 0` falls through to `return True`. -/
def isEventInRange (cfg : ReaderConfig) (now : Int) (event_start : DateTime) : Bool :=
  match cfg.start_date, cfg.end_date with
  | some s, some e =>
    decide (s.instant ≤ event_start.instant) && decide (event_start.instant ≤ e.instant)
  | _, _ =>
    match cfg.days_before with
    | some n =>
      if n ≠ 0 then
        let days_ago := now - n * 86400
        decide (days_ago ≤ event_start.instant) && decide (event_start.instant ≤ now)
      else true
    | none => true

/-- The component loop of `CalendarReader.read_events` before the final sort.
`clock k` is the instant `datetime.datetime.now(timezone.utc)` would return
during the `_is_event_in_range` call for the k-th VEVENT scanned (the call
samples the clock afresh on every invocation that takes the trailing-window
branch). -/
def processComponents (cfg : ReaderConfig) (clock : Nat → Int) :
    List Component → Nat → List CalendarEvent
  | [], _ => []
  | .other _ :: rest, k => processComponents cfg clock rest k
  | .vevent v :: rest, k =>
    let start := normalizeStart v.dtstart
    if isEventInRange cfg (clock k) start then
      let st := getAttendeeStatus v.attendee
      if st = "ACCEPTED" then
        ⟨v.summary, start, st⟩ :: processComponents cfg clock rest (k + 1)
      else
        processComponents cfg clock rest (k + 1)
    else
      processComponents cfg clock rest (k + 1)

/-- The sort key comparison of `sorted(events, key=lambda event: event.start)`:
aware datetimes compare by instant. -/
def eventLe (a b : CalendarEvent) : Bool :=
  decide (a.start.instant ≤ b.start.instant)

/-- `CalendarReader.read_events`: scan the components, filter, and return the
retained events sorted (stably) by start instant. -/
def read_events (cfg : ReaderConfig) (clock : Nat → Int) (comps : List Component) :
    List CalendarEvent :=
  (processComponents cfg clock comps 0).mergeSort eventLe

/-- Zero-padding of a numeric strftime field to the given width. -/
def zeroPad (w : Nat) (n : Int) : String :=
  let s := toString n
  if s.length < w then String.mk (List.replicate (w - s.length) '0') ++ s else s

/-- `event.start.strftime('%d.%m.%Y')`. -/
def strfDate (dt : DateTime) : String :=
  zeroPad 2 dt.day ++ "." ++ zeroPad 2 dt.month ++ "." ++ zeroPad 4 dt.year

/-- The per-event template line from `CalendarPrinter.print_events`. -/
def formatEvent (e : CalendarEvent) : String :=
  "project meeting: " ++ e.summary ++ "_" ++ strfDate e.start ++ ";"

/-- Python `sep.join(parts)`. -/
def joinSep (sep : String) : List String → String
  | [] => ""
  | [s] => s
  | s :: rest => s ++ sep ++ joinSep sep rest

/-- `CalendarPrinter.print_events`: the single string handed to `print`
(which then writes it followed by its own terminating newline). -/
def print_events (events : List CalendarEvent) : String :=
  joinSep " \n" (events.map formatEvent)

/-- What `print(line)` prints in the usage / error paths, and the exit code. -/
structure ExitResult where
  out : List String
  code : Nat
deriving DecidableEq, Repr

/-- The `main(...)` invocation the argument parser hands off to. -/
inductive MainCall where
  | daysMode (file_path : String) (days_before : Int)
  | intervalMode (file_path start_date end_date : String)
deriving DecidableEq, Repr

/-- Outcome of the `__main__` argument dispatch: either an early exit with
printed lines and an exit status, or a call into `main`. -/
inductive CliOutcome where
  | exited (r : ExitResult)
  | ran (c : MainCall)
deriving DecidableEq, Repr

/-- The two usage lines printed on a wrong argument count. -/
def usageLines : List String :=
  ["Usage: python script.py <file_path> <days_before>",
   "   or: python script.py <file_path> <start_date> <end_date>"]

/-- The message printed when `int(sys.argv[2])` raises `ValueError`. -/
def daysErrorLine : String := "The number of days must be an integer."

/-- Digit-run accumulator for the embedded `int(...)` parser. -/
def digitsToNat : List Char → Nat → Option Nat
  | [], acc => some acc
  | c :: rest, acc =>
    if 48 ≤ c.toNat ∧ c.toNat ≤ 57 then
      digitsToNat rest (acc * 10 + (c.toNat - 48))
    else none

/-- Python `int(s)` on a decimal string: an optional sign followed by a
non-empty digit run; `none` models the `ValueError` raised otherwise.
(CPython additionally strips surrounding whitespace and allows digit-group
underscores; no string below exercises those.) -/
def pyInt (s : String) : Option Int :=
  match s.data with
  | [] => none
  | '-' :: rest =>
    if rest.isEmpty then none
    else (digitsToNat rest 0).map (fun n => -(n : Int))
  | '+' :: rest =>
    if rest.isEmpty then none
    else (digitsToNat rest 0).map (fun n => (n : Int))
  | l => (digitsToNat l 0).map (fun n => (n : Int))

/-- The `__main__` block (lines 149-166): check `len(sys.argv) not in [3, 4]`,
then dispatch on the argument count; `int(...)` is embedded as `pyInt`,
with `none` standing for `ValueError`. -/
def cliDispatch (argv : List String) : CliOutcome :=
  if argv.length = 3 ∨ argv.length = 4 then
    if argv.length = 3 then
      match pyInt (argv.getD 2 "") with
      | some n => .ran (.daysMode (argv.getD 1 "") n)
      | none => .exited ⟨[daysErrorLine], 1⟩
    else
      .ran (.intervalMode (argv.getD 1 "") (argv.getD 2 "") (argv.getD 3 ""))
  else
    .exited ⟨usageLines, 1⟩

/-- The VEVENT components of a walk, in order (the ones the reader's
`component.name == "VEVENT"` test keeps). -/
def veventsOf : List Component → List VEvent
  | [] => []
  | .vevent v :: rest => v :: veventsOf rest
  | .other _ :: rest => veventsOf rest

theorem statusScan_eq_accepted_iff (l : List Attendee) :
    statusScan l = "ACCEPTED" ↔ ∃ a ∈ l, attendeeAccepted a = true := by
  induction l with
  | nil => simp [statusScan]
  | cons a rest ih =>
    by_cases h : attendeeAccepted a = true
    · simp [statusScan, h]
    · simp only [statusScan, h, Bool.false_eq_true, if_false, ih, List.mem_cons]
      constructor
      · rintro ⟨x, hx, hacc⟩
        exact ⟨x, Or.inr hx, hacc⟩
      · rintro ⟨x, hx | hx, hacc⟩
        · exact absurd (hx ▸ hacc) h
        · exact ⟨x, hx, hacc⟩

theorem statusScan_cases (l : List Attendee) :
    statusScan l = "ACCEPTED" ∨ statusScan l = "DECLINED" := by
  induction l with
  | nil => right; rfl
  | cons a rest ih =>
    by_cases h : attendeeAccepted a = true
    · left; simp [statusScan, h]
    · simpa [statusScan, h] using ih

theorem getAttendeeStatus_eq_statusScan (f : AttendeeField) :
    getAttendeeStatus f = statusScan (attendeesOf f) := by
  cases f with
  | absent => rfl
  | single a => rfl
  | multiple l => cases l <;> rfl

theorem attendeeAccepted_iff (a : Attendee) :
    attendeeAccepted a = true ↔
      ∃ ps, a.params = some ps ∧ ps.lookup "PARTSTAT" = some "ACCEPTED" := by
  cases h : a.params with
  | none => simp [attendeeAccepted, h]
  | some ps => simp [attendeeAccepted, h]

/-- C2: an event's extracted attendance is `"ACCEPTED"` iff at least one
attendee carries a `PARTSTAT` parameter exactly equal to `"ACCEPTED"`; in
every other case — including an absent or empty attendee list — it is
`"DECLINED"`. -/
theorem attendance_accepted_iff (f : AttendeeField) :
    (getAttendeeStatus f = "ACCEPTED" ↔
      ∃ a ∈ attendeesOf f, ∃ ps, a.params = some ps ∧
        ps.lookup "PARTSTAT" = some "ACCEPTED")
    ∧ (getAttendeeStatus f = "ACCEPTED" ∨ getAttendeeStatus f = "DECLINED") := by
  rw [getAttendeeStatus_eq_statusScan]
  refine ⟨?_, statusScan_cases _⟩
  rw [statusScan_eq_accepted_iff]
  constructor
  · rintro ⟨a, ha, hacc⟩
    exact ⟨a, ha, (attendeeAccepted_iff a).mp hacc⟩
  · rintro ⟨a, ha, hps⟩
    exact ⟨a, ha, (attendeeAccepted_iff a).mpr hps⟩

/-- C3: start-time normalization sends a date-only start to that civil date at
midnight with UTC attached; attaches UTC to a naive date-time without
touching the clock fields; and leaves an already-aware date-time unchanged
(hence denoting the same instant). -/
theorem normalize_start_spec (y m d : Int) (dt : DateTime) :
    normalizeStart (.dateOnly y m d) = ⟨y, m, d, 0, 0, 0, some 0⟩
    ∧ (dt.tz = none → normalizeStart (.dateTime dt) = { dt with tz := some 0 })
    ∧ (∀ off, dt.tz = some off →
        normalizeStart (.dateTime dt) = dt
        ∧ (normalizeStart (.dateTime dt)).instant = dt.instant) := by
  refine ⟨rfl, ?_, ?_⟩
  · intro h
    simp [normalizeStart, h]
  · intro off h
    have : normalizeStart (.dateTime dt) = dt := by
      simp [normalizeStart, h]
    exact ⟨this, by rw [this]⟩

/-- Witness for C3: a date-only start on 2024-01-10, a naive 12:30 clock on the
same day, and the same clock already carrying a +1h offset. -/
theorem normalize_start_spec_witness :
    normalizeStart (.dateOnly 2024 1 10) = ⟨2024, 1, 10, 0, 0, 0, some 0⟩
    ∧ normalizeStart (.dateTime ⟨2024, 1, 10, 12, 30, 0, none⟩)
        = ⟨2024, 1, 10, 12, 30, 0, some 0⟩
    ∧ normalizeStart (.dateTime ⟨2024, 1, 10, 12, 30, 0, some 3600⟩)
        = ⟨2024, 1, 10, 12, 30, 0, some 3600⟩ :=
  ⟨(normalize_start_spec 2024 1 10 ⟨2024, 1, 10, 12, 30, 0, none⟩).1,
   (normalize_start_spec 2024 1 10 ⟨2024, 1, 10, 12, 30, 0, none⟩).2.1 rfl,
   ((normalize_start_spec 2024 1 10 ⟨2024, 1, 10, 12, 30, 0, some 3600⟩).2.2
     3600 rfl).1⟩

/-- C1: for every normalized event start instant, the date-range check retains
the event exactly per the active mode: with both explicit interval bounds
present it passes iff `start_date ≤ start_instant ≤ end_date` (both ends
inclusive); in trailing-window mode (a nonzero day count, no explicit
bounds) it passes iff `now - N days ≤ start_instant ≤ now`; with neither
configuration present (unbounded) it always passes. -/
theorem date_range_check_modes (cfg : ReaderConfig) (now : Int) (ev : DateTime) :
    (∀ s e, cfg.start_date = some s → cfg.end_date = some e →
      (isEventInRange cfg now ev = true ↔
        s.instant ≤ ev.instant ∧ ev.instant ≤ e.instant))
    ∧ (∀ n, cfg.start_date = none → cfg.end_date = none →
        cfg.days_before = some n → n ≠ 0 →
      (isEventInRange cfg now ev = true ↔
        now - n * 86400 ≤ ev.instant ∧ ev.instant ≤ now))
    ∧ (cfg.start_date = none → cfg.end_date = none → cfg.days_before = none →
        isEventInRange cfg now ev = true) := by
  obtain ⟨db, sd, ed⟩ := cfg
  refine ⟨?_, ?_, ?_⟩
  · intro s e hs he
    simp only at hs he
    subst hs he
    simp [isEventInRange]
  · intro n hs he hd hn
    simp only at hs he hd
    subst hs he hd
    simp [isEventInRange, hn]
  · intro hs he hd
    simp only at hs he hd
    subst hs he hd
    simp [isEventInRange]

/-- Witness for C1: Scenario E (an accepted event dated 2024-02-01 is outside
the explicit interval 01_01_2024 .. 31_01_2024), Scenario D (with a 7-day
trailing window at epoch `now = 0`, an event about a year in the past is
excluded), and an unbounded run passing an arbitrary event. -/
theorem date_range_check_modes_witness :
    isEventInRange ⟨none, some (parsedDate 1 1 2024), some (parsedDate 31 1 2024)⟩ 0
      (normalizeStart (.dateOnly 2024 2 1)) = false
    ∧ isEventInRange ⟨some 7, none, none⟩ 0 (normalizeStart (.dateOnly 1969 1 1)) = false
    ∧ isEventInRange ⟨none, none, none⟩ 0 (normalizeStart (.dateOnly 1970 1 1)) = true := by
  refine ⟨?_, ?_, ?_⟩
  · have h := (date_range_check_modes
        ⟨none, some (parsedDate 1 1 2024), some (parsedDate 31 1 2024)⟩ 0
        (normalizeStart (.dateOnly 2024 2 1))).1
        (parsedDate 1 1 2024) (parsedDate 31 1 2024) rfl rfl
    rw [Bool.eq_false_iff]
    intro hb
    exact absurd (h.mp hb) (by decide)
  · have h := (date_range_check_modes ⟨some 7, none, none⟩ 0
        (normalizeStart (.dateOnly 1969 1 1))).2.1 7 rfl rfl rfl (by decide)
    rw [Bool.eq_false_iff]
    intro hb
    exact absurd (h.mp hb) (by decide)
  · exact (date_range_check_modes ⟨none, none, none⟩ 0
        (normalizeStart (.dateOnly 1970 1 1))).2.2 rfl rfl rfl

theorem eventLe_trans (a b c : CalendarEvent) :
    eventLe a b → eventLe b c → eventLe a c := by
  simp only [eventLe, decide_eq_true_eq]
  exact Int.le_trans

theorem eventLe_total (a b : CalendarEvent) :
    eventLe a b || eventLe b a := by
  simp only [eventLe, Bool.or_eq_true, decide_eq_true_eq]
  exact Int.le_total _ _

/-- C4 (refuted as stated): `_is_event_in_range` evaluates
`datetime.datetime.now(timezone.utc)` inside its body, so each event's check
samples the clock afresh.  With a 1-day trailing window, two accepted
events at the epoch instant, and a clock whose first sample is the epoch
and whose second sample is much later, the real scan keeps only the first
event, while a scan reusing the first sample for every event (the behaviour
the claim asserts) keeps both. -/
theorem now_reused_counterexample :
    processComponents ⟨some 1, none, none⟩
        (fun k => if k = 0 then 0 else 1000000000)
        [.vevent ⟨"a", .dateOnly 1970 1 1, .single ⟨some [("PARTSTAT", "ACCEPTED")]⟩⟩,
         .vevent ⟨"b", .dateOnly 1970 1 1, .single ⟨some [("PARTSTAT", "ACCEPTED")]⟩⟩] 0
      ≠
    processComponents ⟨some 1, none, none⟩ (fun _ => 0)
        [.vevent ⟨"a", .dateOnly 1970 1 1, .single ⟨some [("PARTSTAT", "ACCEPTED")]⟩⟩,
         .vevent ⟨"b", .dateOnly 1970 1 1, .single ⟨some [("PARTSTAT", "ACCEPTED")]⟩⟩] 0 := by
  decide

theorem processComponents_eq_enumFrom (cfg : ReaderConfig) (clock : Nat → Int)
    (comps : List Component) :
    ∀ k : Nat, processComponents cfg clock comps k =
      ((veventsOf comps).enumFrom k).filterMap (fun p =>
        if isEventInRange cfg (clock p.1) (normalizeStart p.2.dtstart) = true
            ∧ getAttendeeStatus p.2.attendee = "ACCEPTED"
        then some ⟨p.2.summary, normalizeStart p.2.dtstart,
                   getAttendeeStatus p.2.attendee⟩
        else none) := by
  induction comps with
  | nil => intro k; rfl
  | cons c rest ih =>
    intro k
    cases c with
    | other s => simpa [processComponents, veventsOf] using ih k
    | vevent v =>
      by_cases h1 : isEventInRange cfg (clock k) (normalizeStart v.dtstart) = true
      · by_cases h2 : getAttendeeStatus v.attendee = "ACCEPTED"
        · simp [processComponents, veventsOf, h1, h2, ih (k + 1)]
        · simp [processComponents, veventsOf, h1, h2, ih (k + 1)]
      · simp [processComponents, veventsOf, h1, ih (k + 1)]

/-- C4 (amended): within a run, "now" is sampled at every range-check
invocation — once per scanned VEVENT — not once for the whole run: the
k-th VEVENT of the walk is judged against the k-th clock sample, as the
enumerated characterization of the scan shows. -/
theorem now_sampled_per_event (cfg : ReaderConfig) (clock : Nat → Int)
    (comps : List Component) :
    read_events cfg clock comps =
      (((veventsOf comps).enumFrom 0).filterMap (fun p =>
        if isEventInRange cfg (clock p.1) (normalizeStart p.2.dtstart) = true
            ∧ getAttendeeStatus p.2.attendee = "ACCEPTED"
        then some ⟨p.2.summary, normalizeStart p.2.dtstart,
                   getAttendeeStatus p.2.attendee⟩
        else none)).mergeSort eventLe := by
  rw [read_events, processComponents_eq_enumFrom]

/-- C5: the list returned by `read_events` is non-decreasing in start instant,
and for each instant value the events carrying it appear in the same
relative order as in the filter output (the pre-sort list produced by the
component scan): Python's `sorted` is stable. -/
theorem read_events_sorted_stable (cfg : ReaderConfig) (clock : Nat → Int)
    (comps : List Component) :
    (read_events cfg clock comps).Pairwise
      (fun a b => a.start.instant ≤ b.start.instant)
    ∧ ∀ t : Int,
      (read_events cfg clock comps).filter (fun e => e.start.instant == t)
        = (processComponents cfg clock comps 0).filter
            (fun e => e.start.instant == t) := by
  constructor
  · exact (List.sorted_mergeSort eventLe_trans eventLe_total
      (processComponents cfg clock comps 0)).imp
      (fun h => by simpa [eventLe] using h)
  · intro t
    set l := processComponents cfg clock comps 0 with hl
    set p : CalendarEvent → Bool := fun e => e.start.instant == t with hp
    have hall : ∀ a ∈ l.filter p, p a = true := fun a ha => List.of_mem_filter ha
    have hpw : (l.filter p).Pairwise (fun a b => eventLe a b) := by
      apply List.pairwise_of_forall_mem_list
      intro a ha b hb
      have h1 : a.start.instant = t := by simpa [hp] using hall a ha
      have h2 : b.start.instant = t := by simpa [hp] using hall b hb
      simp [eventLe, h1, h2]
    have hsub : List.Sublist (l.filter p) (l.mergeSort eventLe) :=
      List.sublist_mergeSort eventLe_trans eventLe_total hpw (List.filter_sublist l)
    have hsub2 : List.Sublist (l.filter p) ((l.mergeSort eventLe).filter p) := by
      have := hsub.filter p
      rwa [List.filter_eq_self.mpr hall] at this
    have hperm : List.Perm ((l.mergeSort eventLe).filter p) (l.filter p) :=
      (List.mergeSort_perm l eventLe).filter p
    exact (hsub2.eq_of_length hperm.length_eq.symm).symm

/-- C7: if both explicit interval dates and the trailing-window day count are
absent (unbounded mode), every event passes the date-range check, whatever
its start instant. -/
theorem unbounded_mode_passes_all (cfg : ReaderConfig) (now : Int) (ev : DateTime)
    (h1 : cfg.days_before = none) (h2 : cfg.start_date = none)
    (h3 : cfg.end_date = none) :
    isEventInRange cfg now ev = true := by
  obtain ⟨db, sd, ed⟩ := cfg
  simp only at h1 h2 h3
  subst h1 h2 h3
  simp [isEventInRange]

/-- Witness for C7: a fully-unconfigured range check accepts an arbitrary
event. -/
theorem unbounded_mode_passes_all_witness :
    isEventInRange ⟨none, none, none⟩ 5 (normalizeStart (.dateOnly 2030 12 31)) = true :=
  unbounded_mode_passes_all ⟨none, none, none⟩ 5
    (normalizeStart (.dateOnly 2030 12 31)) rfl rfl rfl

/-- C6: for a non-empty retained list the string handed to `print` (the single
combined write, which `print` terminates with its own newline) consists of
one line per event of the exact form
`project meeting: {summary}_{DD.MM.YYYY};`, consecutive lines joined by the
two-character separator `" \n"` (a space then a newline), with no trailing
separator after the final line. -/
theorem print_events_format (e : CalendarEvent) (rest : List CalendarEvent) :
    print_events (e :: rest) =
      ("project meeting: " ++ e.summary ++ "_"
        ++ zeroPad 2 e.start.day ++ "." ++ zeroPad 2 e.start.month ++ "."
        ++ zeroPad 4 e.start.year ++ ";")
      ++ (if rest.isEmpty then "" else " \n" ++ print_events rest) := by
  cases rest with
  | nil =>
    simp [print_events, joinSep, formatEvent, strfDate, String.append_assoc]
  | cons r rs =>
    have h1 : print_events (e :: r :: rs)
        = formatEvent e ++ " \n" ++ print_events (r :: rs) := rfl
    have h2 : formatEvent e
        = "project meeting: " ++ e.summary ++ "_"
          ++ zeroPad 2 e.start.day ++ "." ++ zeroPad 2 e.start.month ++ "."
          ++ zeroPad 4 e.start.year ++ ";" := by
      simp [formatEvent, strfDate, String.append_assoc]
    rw [h1, h2, String.append_assoc]
    rfl

/-- C8: zero retained events is not an error: the printer is a total function
and on the empty retained list the string handed to `print` is empty. -/
theorem print_events_empty (cfg : ReaderConfig) (clock : Nat → Int)
    (comps : List Component) (h : read_events cfg clock comps = []) :
    print_events (read_events cfg clock comps) = "" := by
  rw [h]
  rfl

/-- Witness for C8, after Scenario B: one VEVENT whose only attendee has
`PARTSTAT=DECLINED` is filtered out even in unbounded mode, and the printed
result is the empty string. -/
theorem print_events_empty_witness :
    print_events (read_events ⟨none, none, none⟩ (fun _ => 0)
      [.vevent ⟨"Sync", .dateOnly 2024 1 10,
        .single ⟨some [("PARTSTAT", "DECLINED")]⟩⟩]) = "" := by
  apply print_events_empty
  have h : processComponents ⟨none, none, none⟩ (fun _ => 0)
      [.vevent ⟨"Sync", .dateOnly 2024 1 10,
        .single ⟨some [("PARTSTAT", "DECLINED")]⟩⟩] 0 = [] := by decide
  rw [read_events, h]
  exact List.mergeSort_nil

/-- C9: an argument vector whose length is neither 3 (program, file, day
count) nor 4 (program, file, start date, end date) makes the program print
the two usage lines to standard output and exit with status 1; and in the
two-argument form a `days_before` that does not parse as an integer makes
it print the day-count error message and exit with status 1. -/
theorem cli_error_paths :
    (∀ argv : List String, argv.length ≠ 3 → argv.length ≠ 4 →
      cliDispatch argv = .exited ⟨usageLines, 1⟩)
    ∧ (∀ prog fp s : String, pyInt s = none →
      cliDispatch [prog, fp, s] = .exited ⟨[daysErrorLine], 1⟩) := by
  constructor
  · intro argv h3 h4
    simp [cliDispatch, h3, h4]
  · intro prog fp s hs
    simp [cliDispatch, hs]

/-- Witness for C9: a one-argument call hits the usage path, and a call whose
day count is the non-numeric string `"x"` hits the integer-error path. -/
theorem cli_error_paths_witness :
    cliDispatch ["script.py"] = .exited ⟨usageLines, 1⟩
    ∧ cliDispatch ["script.py", "cal.ics", "x"] = .exited ⟨[daysErrorLine], 1⟩ :=
  ⟨cli_error_paths.1 ["script.py"] (by decide) (by decide),
   cli_error_paths.2 "script.py" "cal.ics" "x" (by decide)⟩

/-- C10: `days_before = 0` is falsy in the `elif self._days_before:` test, so a
trailing-window run with a zero day count passes every event (it behaves as
unbounded mode); the window comparison is performed exactly when the day
count is nonzero. -/
theorem zero_days_before_passes_all (now : Int) (ev : DateTime) (n : Int) :
    isEventInRange ⟨some 0, none, none⟩ now ev = true
    ∧ (n ≠ 0 →
      (isEventInRange ⟨some n, none, none⟩ now ev = true ↔
        now - n * 86400 ≤ ev.instant ∧ ev.instant ≤ now)) := by
  constructor
  · simp [isEventInRange]
  · intro hn
    simp [isEventInRange, hn]

/-- Witness for C10: with a zero day count every event passes, and with a
one-day window at epoch `now = 0` the epoch-midnight event passes because it
lies inside the window. -/
theorem zero_days_before_passes_all_witness :
    isEventInRange ⟨some 0, none, none⟩ 0 (normalizeStart (.dateOnly 1970 1 1)) = true
    ∧ isEventInRange ⟨some 1, none, none⟩ 0 (normalizeStart (.dateOnly 1970 1 1)) = true := by
  refine ⟨(zero_days_before_passes_all 0 (normalizeStart (.dateOnly 1970 1 1)) 1).1, ?_⟩
  exact ((zero_days_before_passes_all 0 (normalizeStart (.dateOnly 1970 1 1)) 1).2
    (by decide)).mpr (by decide)

end Omnimat
